import Mathlib

/-!
Formal model of the Enhanced Calculator (IS601 midterm project).

Shallow embedding of the core of the repository:
  * `app/operations.py`       — operation classes and the `OperationFactory`
  * `app/calculation.py`      — the `Calculation` record, `calculate`,
                                `to_dict` / `from_dict`, `__eq__`
  * `app/calculator.py`       — `Calculator.perform_operation`, history
                                eviction, `undo` / `redo`, `clear_history`
  * `app/input_validators.py` — `InputValidator.validate_number`
  * `app/calculator_config.py`— the numeric checks of
                                `CalculatorConfig.validate`
  * `app/exceptions.py`       — the exception class names it defines

Numeric model.  Python `Decimal` values are embedded as rationals (`ℚ`);
every finite `Decimal` is a rational, and `str(Decimal)` / `Decimal(str)`
round-trips exactly, so flat records store the rational values themselves.
Arithmetic on `Decimal` under the default context is *correctly rounded to
28 significant decimal digits with round-half-even*; that rounding is
modelled by `roundSig 10 28`.  The `power`, `root` and `int_divide`
operations convert operands to IEEE-754 binary64 floats: conversion and
float division are correctly rounded to 53 significant bits, modelled by
`roundSig 2 53`; the platform `pow` of libm is not correctly rounded and
is modelled by `floatPowModel` / `floatRootModel`, on whose values no
theorem below relies (only on their determinism).
-/

/-- Round a rational to the nearest integer, ties to even
(IEEE / `decimal` `ROUND_HALF_EVEN`). -/
def roundHalfEven (q : ℚ) : ℤ :=
  let f := ⌊q⌋
  let frac := q - (f : ℚ)
  if frac < 1 / 2 then f
  else if 1 / 2 < frac then f + 1
  else if f % 2 = 0 then f else f + 1

theorem roundHalfEven_intCast (m : ℤ) : roundHalfEven (m : ℚ) = m := by
  simp [roundHalfEven]

/-- Exponent of the leading significant digit of `q` in base `base`:
for `q ≠ 0` the unique `e` with `base ^ (e - 1) ≤ |q| < base ^ e`. -/
def sigExp (base : ℕ) (q : ℚ) : ℤ :=
  let e0 : ℤ := (Nat.log base q.num.natAbs : ℤ) - (Nat.log base q.den : ℤ)
  if |q| < (base : ℚ) ^ e0 then e0 else e0 + 1

/-- Correctly rounded (round-half-even) representation of `q` with `prec`
significant digits in base `base`.  `roundSig 10 28` models Python
`decimal` default-context rounding; `roundSig 2 53` models rounding to an
IEEE-754 binary64 float (normal range). -/
def roundSig (base prec : ℕ) (q : ℚ) : ℚ :=
  if q = 0 then 0
  else
    let s : ℚ := (base : ℚ) ^ (sigExp base q - (prec : ℤ))
    (roundHalfEven (q / s) : ℚ) * s

theorem abs_rat_eq_natAbs_div_den (q : ℚ) :
    |q| = (q.num.natAbs : ℚ) / (q.den : ℚ) := by
  conv_lhs => rw [← Rat.num_div_den q]
  rw [abs_div]
  congr 1
  · rw [← Int.cast_abs, ← Int.natCast_natAbs]
    exact Int.cast_natCast _
  · have hd : (0 : ℚ) < (q.den : ℚ) := by exact_mod_cast q.den_pos
    exact abs_of_pos hd

theorem sigExp_lower (base : ℕ) (hb : 1 < base) (q : ℚ) (hq : q ≠ 0) :
    (base : ℚ) ^ (sigExp base q - 1) ≤ |q| := by
  have hbQ : (1 : ℚ) < (base : ℚ) := by exact_mod_cast hb
  have hb0 : (0 : ℚ) < (base : ℚ) := by positivity
  have hbne : (base : ℚ) ≠ 0 := ne_of_gt hb0
  set a : ℕ := q.num.natAbs with ha
  set d : ℕ := q.den with hd
  have ha0 : a ≠ 0 := by
    simp only [ha, Int.natAbs_ne_zero]
    exact Rat.num_ne_zero.mpr hq
  have hd0 : 0 < d := q.den_pos
  have habs : |q| = (a : ℚ) / (d : ℚ) := abs_rat_eq_natAbs_div_den q
  set La : ℕ := Nat.log base a with hLa
  set Lb : ℕ := Nat.log base d with hLb
  have hlow : (base : ℚ) ^ (La : ℤ) ≤ (a : ℚ) := by
    rw [zpow_natCast]
    exact_mod_cast Nat.pow_log_le_self base ha0
  have hhigh : (d : ℚ) < (base : ℚ) ^ ((Lb : ℤ) + 1) := by
    have h := Nat.lt_pow_succ_log_self hb d
    rw [show (Lb : ℤ) + 1 = ((Lb + 1 : ℕ) : ℤ) by push_cast; ring, zpow_natCast]
    exact_mod_cast h
  have hdpos : (0 : ℚ) < (d : ℚ) := by exact_mod_cast hd0
  have hkey : (base : ℚ) ^ ((La : ℤ) - (Lb : ℤ) - 1) < |q| := by
    rw [habs]
    have h1 : (base : ℚ) ^ ((La : ℤ) - (Lb : ℤ) - 1) =
        (base : ℚ) ^ (La : ℤ) / (base : ℚ) ^ ((Lb : ℤ) + 1) := by
      rw [← zpow_sub₀ hbne]; ring_nf
    rw [h1]
    calc (base : ℚ) ^ (La : ℤ) / (base : ℚ) ^ ((Lb : ℤ) + 1)
        < (base : ℚ) ^ (La : ℤ) / (d : ℚ) :=
          div_lt_div_of_pos_left (zpow_pos hb0 _) hdpos hhigh
      _ ≤ (a : ℚ) / (d : ℚ) := by gcongr
  unfold sigExp
  simp only [← ha, ← hd, ← hLa, ← hLb]
  by_cases hcase : |q| < (base : ℚ) ^ ((La : ℤ) - (Lb : ℤ))
  · rw [if_pos hcase]
    exact le_of_lt hkey
  · rw [if_neg hcase]
    simpa using not_lt.mp hcase

theorem roundSig_eq_self (base prec : ℕ) (hb : 1 < base) (n e : ℤ) (q : ℚ)
    (hn : |n| < (base : ℤ) ^ prec) (hq : q = (n : ℚ) * (base : ℚ) ^ e) :
    roundSig base prec q = q := by
  have hbQ : (1 : ℚ) < (base : ℚ) := by exact_mod_cast hb
  have hb0 : (0 : ℚ) < (base : ℚ) := by positivity
  have hbne : (base : ℚ) ≠ 0 := ne_of_gt hb0
  by_cases hq0 : q = 0
  · simp [roundSig, hq0]
  · have hn0 : (n : ℚ) ≠ 0 := by
      intro h
      apply hq0
      rw [hq, h, zero_mul]
    have habs : |q| = |(n : ℚ)| * (base : ℚ) ^ e := by
      rw [hq, abs_mul, abs_of_pos (zpow_pos hb0 e)]
    have hlt : |q| < (base : ℚ) ^ ((prec : ℤ) + e) := by
      rw [habs, zpow_add₀ hbne]
      have h1 : |(n : ℚ)| < (base : ℚ) ^ (prec : ℤ) := by
        rw [zpow_natCast]
        exact_mod_cast hn
      exact mul_lt_mul_of_pos_right h1 (zpow_pos hb0 e)
    have hEle : sigExp base q - (prec : ℤ) ≤ e := by
      have hlow := sigExp_lower base hb q hq0
      have hlt2 := lt_of_le_of_lt hlow hlt
      have hexp : sigExp base q - 1 < (prec : ℤ) + e :=
        (zpow_lt_zpow_iff_right₀ hbQ).mp hlt2
      omega
    set E : ℤ := sigExp base q with hE
    set dd : ℤ := e - (E - (prec : ℤ)) with hdd
    have hdd0 : 0 ≤ dd := by omega
    have hm : q / (base : ℚ) ^ (E - (prec : ℤ)) =
        ((n * (base : ℤ) ^ dd.toNat : ℤ) : ℚ) := by
      push_cast
      rw [hq, div_eq_iff (zpow_ne_zero _ hbne), mul_assoc,
        ← zpow_natCast (base : ℚ), ← zpow_add₀ hbne]
      congr 2
      omega
    unfold roundSig
    rw [if_neg hq0]
    simp only [← hE]
    rw [hm, roundHalfEven_intCast]
    push_cast
    rw [hq, mul_assoc, ← zpow_natCast (base : ℚ), ← zpow_add₀ hbne]
    congr 2
    omega

/-- Decimal addition `a + b` under the default `decimal` context
(result correctly rounded to 28 significant digits). -/
def decAdd (a b : ℚ) : ℚ := roundSig 10 28 (a + b)

/-- Decimal subtraction `a - b` under the default `decimal` context. -/
def decSub (a b : ℚ) : ℚ := roundSig 10 28 (a - b)

/-- Decimal multiplication `a * b` under the default `decimal` context. -/
def decMul (a b : ℚ) : ℚ := roundSig 10 28 (a * b)

/-- Decimal division `a / b` under the default `decimal` context. -/
def decDiv (a b : ℚ) : ℚ := roundSig 10 28 (a / b)

/-- Truncation toward zero, as used by `Decimal` integer division. -/
def ratTrunc (q : ℚ) : ℤ := if 0 ≤ q then ⌊q⌋ else ⌈q⌉

/-- Decimal remainder `a % b`: Python `Decimal.__mod__` returns the exact
`a - b * trunc(a / b)` (sign follows the dividend) — but only when the
integer quotient fits in the context precision of 28 digits; otherwise it
raises `decimal.InvalidOperation` (`DivisionImpossible`), e.g. for
`Decimal(10 ** 30) % Decimal(3)`.  `none` models that raise. -/
def decMod (a b : ℚ) : Option ℚ :=
  if |ratTrunc (a / b)| < 10 ^ 28 then some (a - b * (ratTrunc (a / b) : ℚ))
  else none

/-- Conversion of a `Decimal` value to an IEEE-754 binary64 `float`
(`float(a)`), correctly rounded to 53 significant bits; overflow and
subnormals are outside the modelled range. -/
def floatOf (a : ℚ) : ℚ := roundSig 2 53 a

/-- IEEE-754 binary64 division of two float values (correctly rounded). -/
def floatDiv (a b : ℚ) : ℚ := roundSig 2 53 (a / b)

/-- Model of `Decimal(pow(float(a), float(b)))` (platform libm `pow`).
`pow` is not correctly rounded and is platform-dependent, so it is not
formalisable exactly; this model is exact for nonnegative integer
exponents with exactly representable powers, and is otherwise a
placeholder.  No theorem below depends on its values, only on the fact
that it is a deterministic function of `(a, b)` — which is all the
round-trip and state-machine claims need. -/
def floatPowModel (a b : ℚ) : ℚ :=
  if b.den = 1 ∧ 0 ≤ b.num then roundSig 2 53 ((floatOf a) ^ b.num.toNat) else 0

/-- Model of `Decimal(pow(float(a), 1 / float(b)))` (the `root`
computation).  Like `floatPowModel`, only determinism is relied upon;
the model is exact for perfect square roots with `b = 2`. -/
def floatRootModel (a b : ℚ) : ℚ :=
  if b = 2 then
    let ns := Nat.sqrt a.num.natAbs
    let ds := Nat.sqrt a.den
    if 0 ≤ a.num ∧ ns * ns = a.num.natAbs ∧ ds * ds = a.den then
      (ns : ℚ) / (ds : ℚ)
    else 0
  else 0

/-- Exception values raised by the modelled code
(`app/exceptions.py` classes plus Python builtin `ValueError`). -/
inductive CalcErr where
  /-- `ValidationError` from `app/exceptions.py`. -/
  | validation (msg : String)
  /-- `OperationError` from `app/exceptions.py`. -/
  | operation (msg : String)
  /-- `decimal.InvalidOperation` (an `ArithmeticError`) escaping a
  `Decimal` operation, e.g. `DivisionImpossible` from `%`. -/
  | invalidOperation (msg : String)
  deriving DecidableEq, Repr

/-- The ten operation classes of `app/operations.py`
(`Addition` … `AbsoluteDifference`). -/
inductive OpClass where
  | Addition
  | Subtraction
  | Multiplication
  | Division
  | Power
  | Root
  | Modulus
  | IntegerDivision
  | Percentage
  | AbsoluteDifference
  deriving DecidableEq, Repr

/-- `type(op).__name__`, as returned by `Operation.__str__`
(`operations.py` line 39). -/
def className : OpClass → String
  | .Addition => "Addition"
  | .Subtraction => "Subtraction"
  | .Multiplication => "Multiplication"
  | .Division => "Division"
  | .Power => "Power"
  | .Root => "Root"
  | .Modulus => "Modulus"
  | .IntegerDivision => "IntegerDivision"
  | .Percentage => "Percentage"
  | .AbsoluteDifference => "AbsoluteDifference"

/-- All ten operation classes. -/
def opClasses : List OpClass :=
  [.Addition, .Subtraction, .Multiplication, .Division, .Power, .Root,
   .Modulus, .IntegerDivision, .Percentage, .AbsoluteDifference]

/-- `op.execute(a, b)` for each `Operation` subclass of
`app/operations.py` (lines 45-139), including each subclass's
`validate_operands` check.  `IntegerDivision.execute` wraps its inner
`ValidationError` via its `try/except` into a new `ValidationError`
prefixed with "Integer division failed: " (lines 115-121).  A `Decimal`
`%` whose integer quotient exceeds 28 digits raises
`decimal.InvalidOperation`, which no subclass catches; in `Root`,
`b % 2` is only evaluated when `a < 0` (Python short-circuit `and`,
line 89). -/
def stratExecute : OpClass → ℚ → ℚ → Except CalcErr ℚ
  | .Addition, a, b => .ok (decAdd a b)
  | .Subtraction, a, b => .ok (decSub a b)
  | .Multiplication, a, b => .ok (decMul a b)
  | .Division, a, b =>
      if b = 0 then .error (.validation "Division by zero is not allowed.")
      else .ok (decDiv a b)
  | .Power, a, b => .ok (floatPowModel a b)
  | .Root, a, b =>
      if b = 0 then .error (.validation "Zero root is undefined.")
      else if a < 0 then
        match decMod b 2 with
        | none =>
          .error (.invalidOperation "quotient too large in //, % or divmod")
        | some r =>
          if r = 0 then
            .error (.validation
              "Cannot calculate even root of a negative number.")
          else .ok (floatRootModel a b)
      else .ok (floatRootModel a b)
  | .Modulus, a, b =>
      if b = 0 then .error (.validation "Cannot perform modulus with divisor 0.")
      else
        match decMod a b with
        | some r => .ok r
        | none =>
          .error (.invalidOperation "quotient too large in //, % or divmod")
  | .IntegerDivision, a, b =>
      if b = 0 then
        .error (.validation
          "Integer division failed: Cannot perform integer division by zero.")
      else .ok ((⌊floatDiv (floatOf a) (floatOf b)⌋ : ℚ))
  | .Percentage, a, b =>
      if b = 0 then
        .error (.validation "Cannot calculate percentage with divisor 0.")
      else .ok (decMul (decDiv a b) 100)
  | .AbsoluteDifference, a, b => .ok |decSub a b|

/-- The `OperationFactory._operations` registration dictionary
(`operations.py` lines 152-164), in insertion order. -/
def factoryKeys : List (String × OpClass) :=
  [("add", .Addition),
   ("subtract", .Subtraction),
   ("multiply", .Multiplication),
   ("divide", .Division),
   ("power", .Power),
   ("root", .Root),
   ("modulus", .Modulus),
   ("int_divide", .IntegerDivision),
   ("percent", .Percentage),
   ("percentage", .Percentage),
   ("abs_diff", .AbsoluteDifference)]

/-- Python `str.lower()` (ASCII range, which covers every name the
factory deals with). -/
def pyLower (s : String) : String := ⟨s.data.map Char.toLower⟩

/-- Python `str.strip()`: remove leading and trailing whitespace. -/
def pyStrip (s : String) : String :=
  ⟨((s.data.dropWhile Char.isWhitespace).reverse.dropWhile
      Char.isWhitespace).reverse⟩

/-- `OperationFactory.create_operation` (`operations.py` lines 176-197):
lower-cases and strips the name, looks it up among the registered keys,
falls back to matching lower-cased class names, and otherwise raises
`ValueError` (whose message is the `error` payload here). -/
def createOperation (name : String) : Except String OpClass :=
  let t := pyStrip (pyLower name)
  match factoryKeys.lookup t with
  | some c => .ok c
  | none =>
    match factoryKeys.find? (fun kv => pyLower (className kv.2) == t) with
    | some kv => .ok kv.2
    | none => .error ("Unknown operation: " ++ t)

/-- `Calculation.calculate` (`calculation.py` lines 50-88): the
operation-name dictionary knows only the six Assignment-5 operations;
every other name raises `OperationError("Unknown operation: …")`. -/
def calculate (op : String) (x y : ℚ) : Except CalcErr ℚ :=
  if op = "Addition" then .ok (decAdd x y)
  else if op = "Subtraction" then .ok (decSub x y)
  else if op = "Multiplication" then .ok (decMul x y)
  else if op = "Division" then
    if y ≠ 0 then .ok (decDiv x y)
    else .error (.operation "Division by zero is not allowed")
  else if op = "Power" then
    if 0 ≤ y then .ok (floatPowModel x y)
    else .error (.operation "Negative exponents are not supported")
  else if op = "Root" then
    if 0 ≤ x ∧ y ≠ 0 then .ok (floatRootModel x y)
    else if y = 0 then .error (.operation "Zero root is undefined")
    else .error (.operation "Cannot calculate root of negative number")
  else .error (.operation ("Unknown operation: " ++ op))

/-- One `Calculation` record (`calculation.py` lines 21-45): operation
name, the two operands, the result computed at construction time, and the
creation timestamp (an opaque ISO-8601 string in this model). -/
structure Calculation where
  operation : String
  operand1 : ℚ
  operand2 : ℚ
  result : ℚ
  timestamp : String
  deriving DecidableEq, Repr

/-- Construction of a `Calculation` (`__post_init__` runs `calculate`;
construction fails iff `calculate` raises).  The timestamp is a parameter
standing for `datetime.now()`. -/
def Calculation.make (op : String) (a b : ℚ) (ts : String) :
    Except CalcErr Calculation :=
  (calculate op a b).map fun r =>
    { operation := op, operand1 := a, operand2 := b, result := r,
      timestamp := ts }

/-- `Calculation.__eq__` (`calculation.py` lines 177-186): equality of
operation name, both operands and result — the timestamp is excluded. -/
def calcEq (c₁ c₂ : Calculation) : Prop :=
  c₁.operation = c₂.operation ∧ c₁.operand1 = c₂.operand1 ∧
  c₁.operand2 = c₂.operand2 ∧ c₁.result = c₂.result

/-- A serialized row (`Calculation.to_dict`, `calculation.py` lines
118-130).  The stringified `Decimal` fields are stored value-wise
(`str`/`Decimal` round-trips exactly); the timestamp is the ISO string. -/
structure FlatRecord where
  operation : String
  operand1 : ℚ
  operand2 : ℚ
  result : ℚ
  timestamp : String
  deriving DecidableEq, Repr

/-- `Calculation.to_dict`. -/
def toDict (c : Calculation) : FlatRecord :=
  { operation := c.operation, operand1 := c.operand1,
    operand2 := c.operand2, result := c.result, timestamp := c.timestamp }

/-- `Calculation.from_dict` (`calculation.py` lines 132-160): rebuilds
the record through the constructor — recomputing the result — and then
overwrites the timestamp with the stored one.  The stored `result` field
is only compared against the recomputed value (for the warning log); the
recomputed value is what the returned record carries. -/
def fromDict (d : FlatRecord) : Except CalcErr Calculation :=
  Calculation.make d.operation d.operand1 d.operand2 d.timestamp

/-- Whether `from_dict` emits the `logging.warning` about a stored result
that disagrees with the recomputed one (`calculation.py` lines 150-154). -/
def fromDictWarns (d : FlatRecord) : Bool :=
  match calculate d.operation d.operand1 d.operand2 with
  | .ok r => decide (d.result ≠ r)
  | .error _ => false

/-- The configuration fields consumed by the modelled code
(`CalculatorConfig`): `max_history_size` and `max_input_value`. -/
structure Config where
  maxHistorySize : ℕ
  maxInputValue : ℚ
  deriving DecidableEq, Repr

/-- `InputValidator.validate_number` (`input_validators.py` lines 46-100)
on an already-parsed decimal value: enforce the magnitude limit, then
return the `normalize()`d value (which rounds to context precision). -/
def validateNumber (cfg : Config) (v : ℚ) : Except CalcErr ℚ :=
  if cfg.maxInputValue < |v| then
    .error (.validation "Value exceeds the maximum allowed limit.")
  else .ok (roundSig 10 28 v)

/-- The mutable state of a `Calculator` (`calculator.py` lines 50-54):
history, undo/redo stacks of history snapshots (`CalculatorMemento`
stores a copy of the history list; records are immutable), and the
currently selected operation strategy. -/
structure CalculatorState where
  history : List Calculation
  undoStack : List (List Calculation)
  redoStack : List (List Calculation)
  strategy : Option OpClass
  deriving DecidableEq, Repr

/-- The state right after `Calculator.__init__` with no saved history
file (empty history and stacks, no strategy selected). -/
def initState : CalculatorState :=
  { history := [], undoStack := [], redoStack := [], strategy := none }

/-- `Calculator.set_operation` (`calculator.py` lines 111-121): create
the strategy via the factory, wrapping a factory `ValueError` into an
`OperationError`. -/
def setOperation (s : CalculatorState) (name : String) :
    Except CalcErr CalculatorState :=
  match createOperation name with
  | .ok c => .ok { s with strategy := some c }
  | .error m => .error (.operation m)

/-- History append with FIFO eviction (`calculator.py` lines 153-155):
`history.append(calculation)` followed by `pop(0)` when the length
exceeds `max_history_size`. -/
def appendBounded (m : ℕ) (h : List Calculation) (c : Calculation) :
    List Calculation :=
  let h' := h ++ [c]
  if m < h'.length then h'.tail else h'

/-- Wrapping of exceptions escaping steps 2-3 of `perform_operation`
(`calculator.py` lines 163-168): a `ValidationError` is re-raised
unchanged, anything else becomes
`OperationError("Operation failed: …")`. -/
def wrapPerformError : CalcErr → CalcErr
  | .validation m => .validation m
  | .operation m => .operation ("Operation failed: " ++ m)
  | .invalidOperation m => .operation ("Operation failed: " ++ m)

/-- `Calculator.perform_operation` (`calculator.py` lines 126-168):
validate both inputs, execute the selected strategy, build the
`Calculation` record (which re-runs `calculate` on the class name),
push the pre-mutation history snapshot onto the undo stack, clear the
redo stack, append with eviction.  Observer notification and logging are
side-effect-free for this state.  `ts` stands for `datetime.now()`. -/
def performOperation (cfg : Config) (s : CalculatorState) (a b : ℚ)
    (ts : String) : Except CalcErr (ℚ × CalculatorState) :=
  match s.strategy with
  | none => .error (.operation "No operation set. Please select an operation first.")
  | some strat =>
    match validateNumber cfg a with
    | .error e => .error e
    | .ok va =>
      match validateNumber cfg b with
      | .error e => .error e
      | .ok vb =>
        match stratExecute strat va vb with
        | .error e => .error (wrapPerformError e)
        | .ok result =>
          match Calculation.make (className strat) va vb ts with
          | .error e => .error (wrapPerformError e)
          | .ok rec =>
            .ok (result,
              { history := appendBounded cfg.maxHistorySize s.history rec,
                undoStack := s.undoStack ++ [s.history],
                redoStack := [],
                strategy := s.strategy })

/-- The state the REPL continues with after a `perform_operation` call:
on an exception the calculator object is untouched (the raise happens
before any mutation, `calculator.py` line 139 at the latest). -/
def performState (cfg : Config) (s : CalculatorState) (a b : ℚ)
    (ts : String) : CalculatorState :=
  match performOperation cfg s a b ts with
  | .ok (_, s') => s'
  | .error _ => s

/-- `Calculator.clear_history` (`calculator.py` lines 233-238). -/
def clearHistory (s : CalculatorState) : CalculatorState :=
  { history := [], undoStack := [], redoStack := [], strategy := s.strategy }

/-- `Calculator.undo` (`calculator.py` lines 243-250): `False` on an
empty undo stack; otherwise push the current history onto the redo stack
and restore the popped snapshot. -/
def undo (s : CalculatorState) : Bool × CalculatorState :=
  match s.undoStack.getLast? with
  | none => (false, s)
  | some h =>
    (true,
      { history := h,
        undoStack := s.undoStack.dropLast,
        redoStack := s.redoStack ++ [s.history],
        strategy := s.strategy })

/-- `Calculator.redo` (`calculator.py` lines 252-259). -/
def redo (s : CalculatorState) : Bool × CalculatorState :=
  match s.redoStack.getLast? with
  | none => (false, s)
  | some h =>
    (true,
      { history := h,
        undoStack := s.undoStack ++ [s.history],
        redoStack := s.redoStack.dropLast,
        strategy := s.strategy })

/-- The exception class names defined by `app/exceptions.py`
(lines 14-41). -/
def exceptionsModuleClasses : List String :=
  ["CalculatorError", "ValidationError", "OperationError", "ConfigError",
   "HistoryError"]

/-- The exception name `app/calculator_config.py` line 38 imports from
`app.exceptions` and raises in `CalculatorConfig.validate`. -/
def calculatorConfigImportedException : String := "ConfigurationError"

/-- The numeric checks of `CalculatorConfig.validate`
(`calculator_config.py` lines 163-176); the error payload is the message
of the (unresolvable, see `calculatorConfigImportedException`)
`ConfigurationError`. -/
def configValidateChecks (maxHistorySize precision : ℤ) (maxInputValue : ℚ) :
    Except String Unit :=
  if maxHistorySize ≤ 0 then .error "max_history_size must be positive"
  else if precision ≤ 0 then .error "precision must be positive"
  else if maxInputValue ≤ 0 then .error "max_input_value must be positive"
  else .ok ()

/-- The arithmetic commands offered by the REPL
(`calculator_repl.py` lines 55-59). -/
def replArithmeticCommands : List String :=
  ["add", "subtract", "multiply", "divide", "power", "root", "modulus",
   "int_divide", "percent", "abs_diff"]

/-- Substring test used to state "the error message mentions zero". -/
def strContains (s pat : String) : Bool :=
  (List.range (s.length + 1)).any
    (fun i => ((s.toList.drop i).take pat.length) == pat.toList)

/-- An error message "mentions zero" if it contains the word "zero" or
the digit "0". -/
def mentionsZero (msg : String) : Bool :=
  strContains msg "zero" || strContains msg "0"

/-- `normalize()` is the identity on values with at most 28 significant
digits; integer special case. -/
theorem roundSig10_intCast (n : ℤ) (h : |n| < 10 ^ 28) :
    roundSig 10 28 (n : ℚ) = (n : ℚ) :=
  roundSig_eq_self 10 28 (by norm_num) n 0 (n : ℚ) (by exact_mod_cast h)
    (by norm_num)

/-- The default configuration (`CALCULATOR_MAX_HISTORY_SIZE=1000`,
`CALCULATOR_MAX_INPUT_VALUE=1e999`). -/
def defaultConfig : Config :=
  { maxHistorySize := 1000, maxInputValue := (10 : ℚ) ^ 999 }

theorem setOperation_ok_inv (s : CalculatorState) (name : String)
    (s' : CalculatorState) (h : setOperation s name = .ok s') :
    s'.history = s.history ∧ s'.undoStack = s.undoStack ∧
    s'.redoStack = s.redoStack ∧ ∃ c, s'.strategy = some c := by
  unfold setOperation at h
  cases hc : createOperation name with
  | ok c =>
    rw [hc] at h
    simp only [Except.ok.injEq] at h
    subst h
    exact ⟨rfl, rfl, rfl, c, rfl⟩
  | error m => rw [hc] at h; simp at h

theorem performOperation_ok_inv (cfg : Config) (s : CalculatorState)
    (a b : ℚ) (ts : String) (r : ℚ) (s' : CalculatorState)
    (h : performOperation cfg s a b ts = .ok (r, s')) :
    ∃ c : Calculation,
      s'.history = appendBounded cfg.maxHistorySize s.history c ∧
      s'.undoStack = s.undoStack ++ [s.history] ∧
      s'.redoStack = [] ∧
      s'.strategy = s.strategy := by
  unfold performOperation at h
  split at h
  · simp at h
  · split at h
    · simp at h
    · split at h
      · simp at h
      · split at h
        · simp at h
        · split at h
          · simp at h
          · simp only [Except.ok.injEq, Prod.mk.injEq] at h
            obtain ⟨hr, hs'⟩ := h
            subst hs'
            exact ⟨_, rfl, rfl, rfl, rfl⟩

theorem undo_concat (s : CalculatorState) (l : List (List Calculation))
    (h : List Calculation) (hu : s.undoStack = l ++ [h]) :
    undo s = (true,
      { history := h, undoStack := l,
        redoStack := s.redoStack ++ [s.history],
        strategy := s.strategy }) := by
  unfold undo
  rw [hu]
  simp [List.getLast?_concat, List.dropLast_concat]

theorem undo_empty (s : CalculatorState) (hu : s.undoStack = []) :
    undo s = (false, s) := by
  unfold undo
  rw [hu]
  rfl

theorem redo_concat (s : CalculatorState) (l : List (List Calculation))
    (h : List Calculation) (hr : s.redoStack = l ++ [h]) :
    redo s = (true,
      { history := h, undoStack := s.undoStack ++ [s.history],
        redoStack := l, strategy := s.strategy }) := by
  unfold redo
  rw [hr]
  simp [List.getLast?_concat, List.dropLast_concat]

theorem redo_empty (s : CalculatorState) (hr : s.redoStack = []) :
    redo s = (false, s) := by
  unfold redo
  rw [hr]
  rfl

/-- C10: after `clear_history()` the history and both stacks are empty,
no pre-clear snapshot was pushed, and an immediate `undo()` (or `redo()`)
returns `False` leaving the state unchanged — a clear cannot be undone or
redone. -/
theorem clear_history_not_undoable (s : CalculatorState) :
    (clearHistory s).history = [] ∧ (clearHistory s).undoStack = [] ∧
    (clearHistory s).redoStack = [] ∧
    undo (clearHistory s) = (false, clearHistory s) ∧
    redo (clearHistory s) = (false, clearHistory s) :=
  ⟨rfl, rfl, rfl, undo_empty _ rfl, redo_empty _ rfl⟩

/-- C9: the numeric checks of `CalculatorConfig.validate` do reject each
non-positive parameter with the message of a configuration error, but the
exception name the module imports and raises, `ConfigurationError`, is
not defined by `app.exceptions` (which defines `ConfigError`), so
importing `app.calculator_config` fails before any validation can run. -/
theorem config_validate_import_bug :
    calculatorConfigImportedException ∉ exceptionsModuleClasses ∧
    configValidateChecks (-1) 10 1 = .error "max_history_size must be positive" ∧
    configValidateChecks 1000 (-2) 1 = .error "precision must be positive" ∧
    configValidateChecks 1000 10 0 = .error "max_input_value must be positive" ∧
    configValidateChecks 1000 10 ((10 : ℚ) ^ 999) = .ok () := by
  refine ⟨by decide, rfl, rfl, ?_, ?_⟩
  · unfold configValidateChecks
    rw [if_neg (by norm_num), if_neg (by norm_num), if_pos (by norm_num)]
  · unfold configValidateChecks
    rw [if_neg (by norm_num), if_neg (by norm_num), if_neg (by norm_num)]

/-- C1: the REPL offers `modulus` and the factory resolves it, its
strategy computes `5 mod 3 = 2`, yet `perform_operation` raises
`OperationError("Operation failed: Unknown operation: Modulus")` because
`Calculation.calculate` knows only the six Assignment-5 operation names —
so no record is appended for modulus (and likewise int_divide, percent,
abs_diff). -/
theorem perform_operation_modulus_unknown :
    "modulus" ∈ replArithmeticCommands ∧
    createOperation "modulus" = .ok OpClass.Modulus ∧
    stratExecute OpClass.Modulus 5 3 = .ok 2 ∧
    performOperation defaultConfig
      { history := [], undoStack := [], redoStack := [],
        strategy := some OpClass.Modulus } 5 3 "t" =
      .error (.operation "Operation failed: Unknown operation: Modulus") := by
  have hmod : stratExecute OpClass.Modulus 5 3 = .ok 2 := by
    have ht : ratTrunc ((5 : ℚ) / 3) = 1 := by
      unfold ratTrunc
      rw [if_pos (by norm_num)]
      norm_num
    have hd : decMod 5 3 = some 2 := by
      unfold decMod
      rw [ht, if_pos (by norm_num)]
      norm_num
    simp only [stratExecute]
    rw [if_neg (by norm_num : ¬(3 : ℚ) = 0)]
    simp only [hd]
  refine ⟨by simp [replArithmeticCommands], rfl, hmod, ?_⟩
  have hva : validateNumber defaultConfig 5 = .ok 5 := by
    unfold validateNumber
    rw [if_neg (by unfold defaultConfig; norm_num)]
    rw [show ((5 : ℚ)) = ((5 : ℤ) : ℚ) by norm_num,
      roundSig10_intCast 5 (by norm_num)]
  have hvb : validateNumber defaultConfig 3 = .ok 3 := by
    unfold validateNumber
    rw [if_neg (by unfold defaultConfig; norm_num)]
    rw [show ((3 : ℚ)) = ((3 : ℤ) : ℚ) by norm_num,
      roundSig10_intCast 3 (by norm_num)]
  unfold performOperation
  simp only [hva, hvb, hmod]
  rfl

theorem lookup_eq_none_iff {β : Type} (l : List (String × β)) (k : String) :
    l.lookup k = none ↔ ∀ kv ∈ l, kv.1 ≠ k := by
  induction l with
  | nil => simp
  | cons kv rest ih =>
    cases kv with
    | mk k1 v1 =>
      by_cases h : k = k1
      · subst h
        simp [List.lookup_cons]
      · have hbeq : (k == k1) = false := beq_eq_false_iff_ne.mpr h
        simp [List.lookup_cons, hbeq, ih, Ne.symm h]

theorem lookup_mem {β : Type} (l : List (String × β)) (k : String) (c : β)
    (h : l.lookup k = some c) : (k, c) ∈ l := by
  induction l with
  | nil => simp at h
  | cons kv rest ih =>
    cases kv with
    | mk k1 v1 =>
      rw [List.lookup_cons] at h
      cases hbeq : k == k1 with
      | true =>
        rw [hbeq] at h
        simp only [Option.some.injEq] at h
        subst h
        have : k = k1 := by exact_mod_cast (beq_iff_eq).mp hbeq
        subst this
        exact List.mem_cons_self _ _
      | false =>
        rw [hbeq] at h
        exact List.mem_cons_of_mem _ (ih h)

/-- C8 counterexample: `"addition"` is not a registered factory key, yet
`create_operation("addition")` succeeds through the class-name fallback. -/
theorem create_operation_not_key_but_resolves :
    factoryKeys.lookup "addition" = none ∧
    createOperation "addition" = .ok OpClass.Addition := ⟨rfl, rfl⟩

/-- C8 (amended): resolution succeeds iff the lower-cased, stripped name
is either a registered factory key or the lower-cased class name of a
registered operation class; any other name fails with a `ValueError`
identifying the normalized requested name. -/
theorem create_operation_resolution (name : String) :
    ((∃ c, createOperation name = .ok c) ↔
      (∃ kv ∈ factoryKeys, kv.1 = pyStrip (pyLower name) ∨
        pyLower (className kv.2) = pyStrip (pyLower name))) ∧
    ((∀ kv ∈ factoryKeys, kv.1 ≠ pyStrip (pyLower name) ∧
        pyLower (className kv.2) ≠ pyStrip (pyLower name)) →
      createOperation name =
        .error ("Unknown operation: " ++ pyStrip (pyLower name))) := by
  cases hl : factoryKeys.lookup (pyStrip (pyLower name)) with
  | some c =>
    have hmem := lookup_mem _ _ _ hl
    constructor
    · constructor
      · intro _
        exact ⟨(pyStrip (pyLower name), c), hmem, Or.inl rfl⟩
      · intro _
        refine ⟨c, ?_⟩
        simp only [createOperation, hl]
    · intro hall
      exact absurd rfl (hall _ hmem).1
  | none =>
    have hall1 : ∀ kv ∈ factoryKeys, kv.1 ≠ pyStrip (pyLower name) :=
      (lookup_eq_none_iff _ _).mp hl
    cases hf : factoryKeys.find?
        (fun kv => pyLower (className kv.2) == pyStrip (pyLower name)) with
    | some kv =>
      have hmem := List.mem_of_find?_eq_some hf
      have hpred : pyLower (className kv.2) = pyStrip (pyLower name) := by
        have := List.find?_some hf
        exact_mod_cast (beq_iff_eq).mp this
      constructor
      · constructor
        · intro _
          exact ⟨kv, hmem, Or.inr hpred⟩
        · intro _
          refine ⟨kv.2, ?_⟩
          simp only [createOperation, hl, hf]
      · intro hall
        exact absurd hpred (hall _ hmem).2
    | none =>
      have hall2 : ∀ kv ∈ factoryKeys,
          ¬ pyLower (className kv.2) = pyStrip (pyLower name) := by
        intro kv hkv
        have := List.find?_eq_none.mp hf kv hkv
        simpa using this
      constructor
      · constructor
        · intro ⟨c, hc⟩
          simp only [createOperation, hl, hf] at hc
          exact absurd hc (by simp)
        · intro ⟨kv, hkv, hor⟩
          cases hor with
          | inl h => exact absurd h (hall1 kv hkv)
          | inr h => exact absurd h (hall2 kv hkv)
      · intro _
        simp only [createOperation, hl, hf]

theorem create_operation_resolution_witness :
    createOperation "foo" = .error "Unknown operation: foo" :=
  (create_operation_resolution "foo").2 (by decide)

theorem performOperation_error_of_strat (cfg : Config) (s : CalculatorState)
    (op : OpClass) (a b va vb : ℚ) (ts : String)
    (hstrat : s.strategy = some op)
    (hva : validateNumber cfg a = .ok va)
    (hvb : validateNumber cfg b = .ok vb)
    (e : CalcErr) (hex : stratExecute op va vb = .error e) :
    performOperation cfg s a b ts = .error (wrapPerformError e) := by
  unfold performOperation
  simp only [hstrat, hva, hvb, hex]

theorem roundSig_zero (base prec : ℕ) : roundSig base prec 0 = 0 := by
  simp [roundSig]

/-- C6: for divide, modulus, int_divide and percent, executing with a
zero second operand fails with a `ValidationError` whose message mentions
zero, and the calculator state — history, undo stack and redo stack — is
left unchanged (no record is created: the exception is raised before any
mutation). -/
theorem zero_divisor_rejected (cfg : Config) (s : CalculatorState)
    (op : OpClass)
    (hop : op = OpClass.Division ∨ op = OpClass.Modulus ∨
      op = OpClass.IntegerDivision ∨ op = OpClass.Percentage)
    (hstrat : s.strategy = some op) (a : ℚ)
    (hmax : 0 ≤ cfg.maxInputValue) (ha : |a| ≤ cfg.maxInputValue)
    (ts : String) :
    ∃ msg, performOperation cfg s a 0 ts = .error (.validation msg) ∧
      mentionsZero msg = true ∧
      performState cfg s a 0 ts = s := by
  have hva : validateNumber cfg a = .ok (roundSig 10 28 a) := by
    unfold validateNumber
    rw [if_neg (not_lt.mpr ha)]
  have hv0 : validateNumber cfg 0 = .ok 0 := by
    unfold validateNumber
    rw [if_neg (by simpa using not_lt.mpr hmax), roundSig_zero]
  rcases hop with h | h | h | h <;> subst h
  · have hperf := performOperation_error_of_strat cfg s _ a 0 _ 0 ts hstrat
      hva hv0 (.validation "Division by zero is not allowed.")
      (by simp [stratExecute])
    exact ⟨_, hperf, rfl, by unfold performState; rw [hperf]⟩
  · have hperf := performOperation_error_of_strat cfg s _ a 0 _ 0 ts hstrat
      hva hv0 (.validation "Cannot perform modulus with divisor 0.")
      (by simp [stratExecute])
    exact ⟨_, hperf, rfl, by unfold performState; rw [hperf]⟩
  · have hperf := performOperation_error_of_strat cfg s _ a 0 _ 0 ts hstrat
      hva hv0 (.validation
        "Integer division failed: Cannot perform integer division by zero.")
      (by simp [stratExecute])
    exact ⟨_, hperf, rfl, by unfold performState; rw [hperf]⟩
  · have hperf := performOperation_error_of_strat cfg s _ a 0 _ 0 ts hstrat
      hva hv0 (.validation "Cannot calculate percentage with divisor 0.")
      (by simp [stratExecute])
    exact ⟨_, hperf, rfl, by unfold performState; rw [hperf]⟩

theorem zero_divisor_rejected_witness :
    ∃ msg,
      performOperation defaultConfig
        { history := [], undoStack := [], redoStack := [],
          strategy := some OpClass.Division } 5 0 "t" =
        .error (.validation msg) ∧
      mentionsZero msg = true ∧
      performState defaultConfig
        { history := [], undoStack := [], redoStack := [],
          strategy := some OpClass.Division } 5 0 "t" =
        { history := [], undoStack := [], redoStack := [],
          strategy := some OpClass.Division } :=
  zero_divisor_rejected defaultConfig _ OpClass.Division (Or.inl rfl) rfl 5
    (by unfold defaultConfig; positivity)
    (by unfold defaultConfig; rw [abs_of_pos (by norm_num)]; norm_num) "t"

theorem decAdd_two_three : decAdd 2 3 = 5 := by
  rw [decAdd, show (2 : ℚ) + 3 = 5 by norm_num]
  exact roundSig_eq_self 10 28 (by norm_num) 5 0 5 (by norm_num) (by norm_num)

theorem calculate_addition (a b : ℚ) : calculate "Addition" a b = .ok (decAdd a b) := by
  unfold calculate
  rw [if_pos rfl]

/-- C7: deserializing a row whose stored result disagrees with the value
recomputed from its operation and operands does not fail: the returned
record carries the recomputed result, every other field including the
timestamp is preserved verbatim, and the consistency warning fires. -/
theorem from_dict_recomputes (d : FlatRecord) (r : ℚ)
    (h : calculate d.operation d.operand1 d.operand2 = .ok r)
    (hne : d.result ≠ r) :
    ∃ c, fromDict d = .ok c ∧ c.result = r ∧ c.operation = d.operation ∧
      c.operand1 = d.operand1 ∧ c.operand2 = d.operand2 ∧
      c.timestamp = d.timestamp ∧ fromDictWarns d = true := by
  refine ⟨⟨d.operation, d.operand1, d.operand2, r, d.timestamp⟩,
    ?_, rfl, rfl, rfl, rfl, rfl, ?_⟩
  · unfold fromDict Calculation.make
    rw [h]
    rfl
  · unfold fromDictWarns
    rw [h]
    simp [hne]

theorem from_dict_recomputes_witness :
    ∃ c,
      fromDict { operation := "Addition", operand1 := 2, operand2 := 3,
                 result := 10, timestamp := "t" } = .ok c ∧
      c.result = 5 ∧ c.operation = "Addition" ∧ c.operand1 = 2 ∧
      c.operand2 = 3 ∧ c.timestamp = "t" ∧
      fromDictWarns { operation := "Addition", operand1 := 2, operand2 := 3,
                      result := 10, timestamp := "t" } = true :=
  from_dict_recomputes
    { operation := "Addition", operand1 := 2, operand2 := 3, result := 10,
      timestamp := "t" } 5
    (show calculate "Addition" 2 3 = .ok 5 by
      rw [calculate_addition, decAdd_two_three])
    (by norm_num)

theorem make_roundtrip (op : String) (a b : ℚ) (ts : String)
    (c : Calculation) (h : Calculation.make op a b ts = .ok c) :
    fromDict (toDict c) = .ok c := by
  unfold Calculation.make at h
  cases hc : calculate op a b with
  | error e => rw [hc] at h; simp [Except.map] at h
  | ok r =>
    rw [hc] at h
    simp only [Except.map, Except.ok.injEq] at h
    subst h
    unfold fromDict toDict Calculation.make
    simp only
    rw [hc]
    rfl

/-- C4: for every constructible record, `from_dict(to_dict(c))` succeeds
and returns a record equal to `c` (both literally and in the sense of
`Calculation.__eq__`, which ignores the timestamp); applied row by row
over a history list, the round-trip reproduces the records in order. -/
theorem calculation_roundtrip (op : String) (a b : ℚ) (ts : String)
    (c : Calculation) (h : Calculation.make op a b ts = .ok c) :
    (fromDict (toDict c) = .ok c ∧ calcEq c c) ∧
    ∀ hist : List Calculation,
      (∀ x ∈ hist, ∃ o p q t, Calculation.make o p q t = .ok x) →
      hist.mapM (fun x => fromDict (toDict x)) = .ok hist := by
  constructor
  · exact ⟨make_roundtrip op a b ts c h, rfl, rfl, rfl, rfl⟩
  · intro hist hall
    induction hist with
    | nil => rfl
    | cons x xs ih =>
      obtain ⟨o, p, q, t, hx⟩ := hall x (List.mem_cons_self _ _)
      have h1 := make_roundtrip o p q t x hx
      rw [List.mapM_cons, h1,
        ih (fun y hy => hall y (List.mem_cons_of_mem _ hy))]
      rfl

theorem calculation_roundtrip_witness :
    fromDict (toDict ⟨"Addition", 2, 3, 5, "t0"⟩) =
      .ok (⟨"Addition", 2, 3, 5, "t0"⟩ : Calculation) :=
  ((calculation_roundtrip "Addition" 2 3 "t0" ⟨"Addition", 2, 3, 5, "t0"⟩
    (by unfold Calculation.make
        rw [calculate_addition, decAdd_two_three]
        rfl)).1).1

theorem foldl_appendBounded (m : ℕ) (l : List Calculation) :
    List.foldl (appendBounded m) [] l = l.drop (l.length - m) := by
  induction l using List.reverseRecOn with
  | nil => simp
  | append_singleton l r ih =>
    rw [List.foldl_append, List.foldl_cons, List.foldl_nil, ih]
    unfold appendBounded
    simp only [List.length_append, List.length_drop, List.length_singleton]
    by_cases hmn : m ≤ l.length
    · rw [if_pos (by omega)]
      by_cases hm0 : m = 0
      · subst hm0
        simp
      · have hs : (l.drop (l.length - m)) ≠ [] := by
          intro hnil
          have := congrArg List.length hnil
          simp only [List.length_drop, List.length_nil] at this
          omega
        rw [List.tail_append_of_ne_nil hs, List.tail_drop,
          List.drop_append_of_le_length (by omega)]
        congr 2
        omega
    · rw [if_neg (by omega)]
      have h1 : l.length - m = 0 := by omega
      have h2 : l.length + 1 - m = 0 := by omega
      rw [h1, h2]
      simp

/-- C3: appending `m + k` records through the `perform_operation` append
path leaves exactly the last `m` records, i.e. the `k`-th through
`(m+k-1)`-th appended ones (0-based), in order; after every prefix of
appends the history length is at most `m`; and every successful
`perform_operation` updates the history exactly by this bounded append. -/
theorem history_fifo_bounded (m k : ℕ) (hk : 0 < k)
    (recs : List Calculation) (hlen : recs.length = m + k) :
    List.foldl (appendBounded m) [] recs = recs.drop k ∧
    (List.foldl (appendBounded m) [] recs).length = m ∧
    (∀ j, (List.foldl (appendBounded m) [] (recs.take j)).length ≤ m) ∧
    (∀ cfg s a b ts r s',
      performOperation cfg s a b ts = .ok (r, s') →
      ∃ c, s'.history = appendBounded cfg.maxHistorySize s.history c) := by
  refine ⟨?_, ?_, ?_, ?_⟩
  · rw [foldl_appendBounded]
    congr 1
    omega
  · rw [foldl_appendBounded, List.length_drop]
    omega
  · intro j
    rw [foldl_appendBounded, List.length_drop]
    omega
  · intro cfg s a b ts r s' h
    obtain ⟨c, hc, _⟩ := performOperation_ok_inv cfg s a b ts r s' h
    exact ⟨c, hc⟩

theorem history_fifo_bounded_witness :
    List.foldl (appendBounded 2) []
      [⟨"Addition", 1, 1, 2, "t1"⟩, ⟨"Addition", 2, 2, 4, "t2"⟩,
       ⟨"Addition", 3, 3, 6, "t3"⟩] =
      [(⟨"Addition", 2, 2, 4, "t2"⟩ : Calculation),
       ⟨"Addition", 3, 3, 6, "t3"⟩] :=
  (history_fifo_bounded 2 1 (by norm_num)
    [⟨"Addition", 1, 1, 2, "t1"⟩, ⟨"Addition", 2, 2, 4, "t2"⟩,
     ⟨"Addition", 3, 3, 6, "t3"⟩] rfl).1

/-- C2: from a fresh session (with `max_history_size ≥ 2`, as in the
default configuration), after successful operations A then B, `undo()`
returns `True` and restores the pre-B history (exactly A's one record);
`redo()` then returns `True` and restores the post-B history (A's and
B's records); and any new successful operation C performed after an undo
clears the redo stack, so the following `redo()` returns `False` and
changes nothing. -/
theorem undo_redo_round_trip (cfg : Config) (hm : 2 ≤ cfg.maxHistorySize)
    (nameA nameB : String) (a1 a2 b1 b2 : ℚ) (tsA tsB : String)
    (s1 sA s2 sB : CalculatorState) (rA rB : ℚ)
    (hsetA : setOperation initState nameA = .ok s1)
    (hA : performOperation cfg s1 a1 a2 tsA = .ok (rA, sA))
    (hsetB : setOperation sA nameB = .ok s2)
    (hB : performOperation cfg s2 b1 b2 tsB = .ok (rB, sB)) :
    (undo sB).1 = true ∧
    (undo sB).2.history = sA.history ∧
    sA.history.length = 1 ∧
    (redo (undo sB).2).1 = true ∧
    (redo (undo sB).2).2.history = sB.history ∧
    sB.history.length = 2 ∧
    sB.history.take 1 = sA.history ∧
    (∀ nameC c1 c2 tsC s3 rC sC,
      setOperation (undo sB).2 nameC = .ok s3 →
      performOperation cfg s3 c1 c2 tsC = .ok (rC, sC) →
      redo sC = (false, sC)) := by
  have happ1 : ∀ c : Calculation,
      appendBounded cfg.maxHistorySize [] c = [c] := by
    intro c
    unfold appendBounded
    rw [if_neg (by simp; omega)]
    simp
  have happ2 : ∀ c c' : Calculation,
      appendBounded cfg.maxHistorySize [c] c' = [c, c'] := by
    intro c c'
    unfold appendBounded
    rw [if_neg (by simp; omega)]
    simp
  obtain ⟨h1hist, h1undo, h1redo, _⟩ := setOperation_ok_inv _ _ _ hsetA
  simp only [initState] at h1hist h1undo h1redo
  obtain ⟨cA, hAhist, hAundo, hAredo, _⟩ :=
    performOperation_ok_inv cfg s1 a1 a2 tsA rA sA hA
  rw [h1hist, happ1] at hAhist
  rw [h1undo, h1hist] at hAundo
  simp only [List.nil_append] at hAundo
  obtain ⟨h2hist, h2undo, h2redo, _⟩ := setOperation_ok_inv _ _ _ hsetB
  rw [hAhist] at h2hist
  rw [hAundo] at h2undo
  obtain ⟨cB, hBhist, hBundo, hBredo, _⟩ :=
    performOperation_ok_inv cfg s2 b1 b2 tsB rB sB hB
  rw [h2hist, happ2] at hBhist
  rw [h2undo, h2hist] at hBundo
  have hU : undo sB = (true,
      { history := [cA], undoStack := [[]], redoStack := [[cA, cB]],
        strategy := sB.strategy }) := by
    rw [undo_concat sB [[]] [cA] hBundo, hBredo, hBhist]
    rfl
  have hR : redo (undo sB).2 = (true,
      { history := [cA, cB], undoStack := [[], [cA]], redoStack := [],
        strategy := sB.strategy }) := by
    rw [hU]
    rw [redo_concat _ [] [cA, cB] rfl]
    rfl
  refine ⟨by rw [hU], by rw [hU, hAhist], by rw [hAhist]; rfl,
    by rw [hR], by rw [hR, hBhist], by rw [hBhist]; rfl,
    by rw [hBhist, hAhist]; rfl, ?_⟩
  intro nameC c1 c2 tsC s3 rC sC hsetC hC
  obtain ⟨_, _, _, _⟩ := setOperation_ok_inv _ _ _ hsetC
  obtain ⟨cC, _, _, hCredo, _⟩ :=
    performOperation_ok_inv cfg s3 c1 c2 tsC rC sC hC
  exact redo_empty sC hCredo

theorem decAdd_lit (a b : ℚ) (n : ℤ) (hab : a + b = (n : ℚ))
    (h : |n| < 10 ^ 28) : decAdd a b = (n : ℚ) := by
  rw [decAdd, hab, roundSig10_intCast n h]

theorem validateNumber_default (v : ℚ) (n : ℤ) (hv : v = (n : ℚ))
    (h : |n| < 10 ^ 28) : validateNumber defaultConfig v = .ok v := by
  subst hv
  have habs : |(n : ℚ)| < (10 : ℚ) ^ 999 := by
    calc |(n : ℚ)| = ((|n| : ℤ) : ℚ) := by rw [Int.cast_abs]
      _ < ((10 ^ 28 : ℤ) : ℚ) := by exact_mod_cast h
      _ ≤ (10 : ℚ) ^ 999 := by norm_num
  unfold validateNumber
  rw [if_neg (by unfold defaultConfig; exact not_lt.mpr habs.le),
    roundSig10_intCast n h]

theorem undo_redo_round_trip_witness :
    (undo { history := [⟨"Addition", 1, 1, 2, "t1"⟩,
                        ⟨"Addition", 2, 2, 4, "t2"⟩],
            undoStack := [[], [⟨"Addition", 1, 1, 2, "t1"⟩]],
            redoStack := [],
            strategy := some OpClass.Addition }).1 = true ∧
    (undo { history := [⟨"Addition", 1, 1, 2, "t1"⟩,
                        ⟨"Addition", 2, 2, 4, "t2"⟩],
            undoStack := [[], [⟨"Addition", 1, 1, 2, "t1"⟩]],
            redoStack := [],
            strategy := some OpClass.Addition }).2.history =
      [⟨"Addition", 1, 1, 2, "t1"⟩] := by
  have hv1 : validateNumber defaultConfig 1 = .ok 1 :=
    validateNumber_default 1 1 (by norm_num) (by norm_num)
  have hv2 : validateNumber defaultConfig 2 = .ok 2 :=
    validateNumber_default 2 2 (by norm_num) (by norm_num)
  have hx1 : stratExecute OpClass.Addition 1 1 = .ok 2 := by
    simp only [stratExecute]
    rw [decAdd_lit 1 1 2 (by norm_num) (by norm_num)]
    norm_num
  have hx2 : stratExecute OpClass.Addition 2 2 = .ok 4 := by
    simp only [stratExecute]
    rw [decAdd_lit 2 2 4 (by norm_num) (by norm_num)]
    norm_num
  have hmk1 : Calculation.make "Addition" 1 1 "t1" =
      .ok ⟨"Addition", 1, 1, 2, "t1"⟩ := by
    unfold Calculation.make
    rw [calculate_addition, decAdd_lit 1 1 2 (by norm_num) (by norm_num)]
    rfl
  have hmk2 : Calculation.make "Addition" 2 2 "t2" =
      .ok ⟨"Addition", 2, 2, 4, "t2"⟩ := by
    unfold Calculation.make
    rw [calculate_addition, decAdd_lit 2 2 4 (by norm_num) (by norm_num)]
    rfl
  have hA : performOperation defaultConfig
      { history := [], undoStack := [], redoStack := [],
        strategy := some OpClass.Addition } 1 1 "t1" =
      .ok (2, { history := [⟨"Addition", 1, 1, 2, "t1"⟩],
                undoStack := [[]], redoStack := [],
                strategy := some OpClass.Addition }) := by
    unfold performOperation
    simp only [className, hv1, hx1, hmk1]
    rfl
  have hB : performOperation defaultConfig
      { history := [⟨"Addition", 1, 1, 2, "t1"⟩],
        undoStack := [[]], redoStack := [],
        strategy := some OpClass.Addition } 2 2 "t2" =
      .ok (4, { history := [⟨"Addition", 1, 1, 2, "t1"⟩,
                            ⟨"Addition", 2, 2, 4, "t2"⟩],
                undoStack := [[], [⟨"Addition", 1, 1, 2, "t1"⟩]],
                redoStack := [],
                strategy := some OpClass.Addition }) := by
    unfold performOperation
    simp only [className, hv2, hx2, hmk2]
    rfl
  have h := undo_redo_round_trip defaultConfig (by unfold defaultConfig; norm_num)
    "add" "add" 1 1 2 2 "t1" "t2" _ _ _ _ 2 4 rfl hA rfl hB
  exact ⟨h.1, h.2.1⟩

